import Mathlib

/-!
# Verification of the tsp-triager triage pipeline specification

Shallow embedding of the core of `tsp-triager` (TypeSpec issue triage tool):

* `src/helpers/verify-repro.ts` — the sandbox verify script
  (`detectImports`, `collectOutputFiles`, `main`),
* `src/triage/execute-agent.ts` — the agent runner (`executeAgent`),
* `src/triage/aggregate-results.ts` — the aggregator (`aggregateResults`).

External effects (process spawning, filesystem state, the lzutf8 playground
link encoder, the `buildActions` rule table, the token-usage regex parser)
are modelled as explicit parameters or outcome values, so every theorem is
universally quantified over them.  Machine-level details that the claims do
not touch (wall-clock durations, which are floating point) are omitted.
-/

namespace TspTriager

/-- JavaScript truthiness of a `string | null | undefined` value:
`null`/`undefined` and the empty string are falsy. -/
def truthyStr : Option String → Bool
  | none => false
  | some s => !(s == "")

/-! ## Dependency detector: `detectImports` (src/helpers/verify-repro.ts)

The source scans the snippet with the regex `/import\s+"([^"]+)"/g` and pushes
every capture group.  We embed the regex loop as a left-to-right scanner over
the character list: at each position we try to match the literal `import`,
one or more whitespace characters, a double quote, one or more non-quote
characters (captured), and a closing quote; on a match the capture is
recorded and scanning resumes after the match (the regex `lastIndex`
semantics); otherwise scanning advances one character. -/

/-- JavaScript `\s` whitespace, restricted to its ASCII members. -/
def isJsSpace (c : Char) : Bool :=
  c == ' ' || c == '\t' || c == '\n' || c == '\r' || c == '\x0b' || c == '\x0c'

/-- Match a literal character sequence at the head of the input, returning
the rest of the input on success. -/
def matchLit : List Char → List Char → Option (List Char)
  | [], rest => some rest
  | _ :: _, [] => none
  | c :: cs, d :: ds => if c = d then matchLit cs ds else none

/-- Greedily drop leading JS whitespace. -/
def dropJsSpaces : List Char → List Char
  | [] => []
  | c :: cs => if isJsSpace c then dropJsSpaces cs else c :: cs

/-- Match `\s+` at the head of the input (at least one whitespace char). -/
def matchSpaces1 : List Char → Option (List Char)
  | [] => none
  | c :: cs => if isJsSpace c then some (dropJsSpaces cs) else none

/-- Try to match `import\s+"([^"]+)"` at the current position; on success
return the capture and the input after the closing quote. -/
def tryMatchImport (l : List Char) : Option (String × List Char) :=
  match matchLit "import".toList l with
  | none => none
  | some r1 =>
    match matchSpaces1 r1 with
    | none => none
    | some r2 =>
      match r2 with
      | '"' :: r3 =>
        let cap := r3.takeWhile (fun c => !(c == '"'))
        let r4 := r3.dropWhile (fun c => !(c == '"'))
        match cap, r4 with
        | [], _ => none
        | _ :: _, '"' :: r5 => some (String.mk cap, r5)
        | _ :: _, _ => none
      | _ => none

/-- Regex scanning loop (fuelled; the fuel is the input length plus one,
which is never exhausted since every step consumes at least one char). -/
def scanImports : Nat → List Char → List String
  | 0, _ => []
  | _ + 1, [] => []
  | fuel + 1, c :: rest =>
    match tryMatchImport (c :: rest) with
    | some (dep, r) => dep :: scanImports fuel r
    | none => scanImports fuel rest

/-- `detectImports` of src/helpers/verify-repro.ts: every capture of
`/import\s+"([^"]+)"/g` over the snippet, in match order. -/
def detectImports (code : String) : List String :=
  scanImports (code.toList.length + 1) code.toList

/-! ## Manifest synthesis (src/helpers/verify-repro.ts, `main`)

The script builds the `dependencies` object of the sandbox `package.json`
starting from `{"@typespec/compiler": "latest"}`, adding every detected
module reference that starts with `@`, and finally the emitter package if
one was requested.  All values are `"latest"`, so only the ordered key set matters;
a JavaScript object keeps the first insertion position of a repeated key. -/

/-- The test `imp.startsWith("@")` of the source: since the argument is
the single character `@`, this is exactly "the first character is `@`"
(written out so that the kernel can evaluate it; `String.startsWith`
itself is compiled code and does not reduce). -/
def atScoped (s : String) : Bool :=
  match s.data with
  | [] => false
  | c :: _ => c == '@'

/-- Insert a key into an ordered key set, JavaScript-object style. -/
def addDepKey (ks : List String) (k : String) : List String :=
  if k ∈ ks then ks else ks ++ [k]

/-- The ordered key set of the `dependencies` object written into the
sandbox `package.json`. -/
def manifestDeps (code : String) (emitter : Option String) : List String :=
  let withImports := (detectImports code).foldl
    (fun ks imp => if atScoped imp then addDepKey ks imp else ks)
    ["@typespec/compiler"]
  match emitter with
  | some e => if e = "" then withImports else addDepKey withImports e
  | none => withImports

/-! ## Emitter output collection: `collectOutputFiles`

The filesystem subtree under the emitter output directory is modelled as a
rose tree: a directory is an ordered list of named entries, a regular file
carries its textual content and a flag saying whether reading it as UTF-8
succeeds (the script swallows read failures per file). -/

mutual

/-- One filesystem entry: a regular file (with a readability flag and its
textual content) or a directory. -/
inductive FsEntry where
  | file (readable : Bool) (content : String)
  | dir (entries : FsEntries)

/-- An ordered list of named filesystem entries (readdir order). -/
inductive FsEntries where
  | nil
  | cons (name : String) (entry : FsEntry) (rest : FsEntries)

end

/-- The path of a child entry relative to the collection base:
`relative(base, join(dir, entry))` of the source, expressed with an
accumulated relative prefix (empty at the base itself). -/
def childRel (pre name : String) : String :=
  if pre = "" then name else pre ++ "/" ++ name

mutual

/-- `collectOutputFiles` of src/helpers/verify-repro.ts on one entry:
a directory recurses; a readable regular file whose content is shorter
than 50,000 characters is recorded under its relative path; unreadable
files are skipped (the `catch` branch). -/
def collectEntry : FsEntry → String → List (String × String)
  | .file true c, rel => if c.length < 50000 then [(rel, c)] else []
  | .file false _, _ => []
  | .dir es, rel => collectEntries es rel

/-- `collectOutputFiles` over the entries of one directory, in readdir
order (`Object.assign` accumulates sub-results in iteration order). -/
def collectEntries : FsEntries → String → List (String × String)
  | .nil, _ => []
  | .cons name e rest, pre =>
    collectEntry e (childRel pre name) ++ collectEntries rest pre

end

/-- The top-level call `collectOutputFiles(outputDir, outputDir)`: if the
output directory does not exist the result is empty. -/
def collectTop : Option FsEntries → List (String × String)
  | none => []
  | some es => collectEntries es ""

mutual

/-- Specification-side inventory: every regular file in the subtree with
its relative path, readability flag and content — no size or readability
filtering. -/
def allFilesEntry : FsEntry → String → List (String × Bool × String)
  | .file r c, rel => [(rel, r, c)]
  | .dir es, rel => allFilesEntries es rel

/-- Specification-side inventory over a directory's entries. -/
def allFilesEntries : FsEntries → String → List (String × Bool × String)
  | .nil, _ => []
  | .cons name e rest, pre =>
    allFilesEntry e (childRel pre name) ++ allFilesEntries rest pre

end

/-! ## The verify script's `main` (src/helpers/verify-repro.ts)

Process execution is modelled by an outcome value: `execSync` either
returns captured stdout or throws an error object carrying optional
captured stdout/stderr and an optional numeric exit status. -/

/-- Outcome of one `execSync` call. -/
inductive ExecOutcome where
  | ok (stdout : String)
  | err (stdout stderr : Option String) (status : Option Int)

/-- The JSON verdict printed by the verify script. -/
structure VerifyResult where
  success : Bool
  diagnostics : String
  exitCode : Int
  emitterOutput : Option (List (String × String))
deriving DecidableEq, Repr

/-- A run of the verify script: the verdict plus whether the compiler
invocation was attempted (the second `execSync`). -/
structure VerifyRun where
  verdict : VerifyResult
  compileRan : Bool
deriving DecidableEq, Repr

/-- The `main` of src/helpers/verify-repro.ts from the point where the
sandbox directory is populated: install dependencies (short-circuiting to
the install-failed verdict on a thrown error), then compile, then derive
the verdict; on either compile outcome, collect the emitter output
directory when an emitter was requested.  `outDir` is the state of the
`tsp-output` subdirectory at collection time (`none` if absent). -/
def verifyMain (emitter : Option String) (install compile : ExecOutcome)
    (outDir : Option FsEntries) : VerifyRun :=
  match install with
  | .err so se _ =>
    { verdict :=
        { success := false
          diagnostics := "Install failed: " ++ (se.getD (so.getD "unknown error"))
          exitCode := -1
          emitterOutput := none }
      compileRan := false }
  | .ok _ =>
    match compile with
    | .ok out =>
      { verdict :=
          { success := true
            diagnostics :=
              if out = "" then "(compiled successfully, no diagnostics)" else out
            exitCode := 0
            emitterOutput :=
              if truthyStr emitter then some (collectTop outDir) else none }
        compileRan := true }
    | .err so se status =>
      { verdict :=
          { success := false
            diagnostics := so.getD "" ++ se.getD ""
            exitCode := status.getD 1
            emitterOutput :=
              if truthyStr emitter then some (collectTop outDir) else none }
        compileRan := true }

/-! ## Data model (src/types.ts and src/triage/types.ts) -/

/-- `TriageIssue.category`. -/
inductive Category where
  | bug | featureRequest | docsBug | unknown
deriving DecidableEq, Repr

/-- `TriageIssue.reproStatus`. -/
inductive ReproStatus where
  | hasRepro | missing | generated | unableToRepro
deriving DecidableEq, Repr

/-- `TriageIssue.verification`. -/
inductive Verification where
  | stillReproduces | fixed | compileError | notVerified
deriving DecidableEq, Repr

/-- Token-usage counters. -/
structure TokenUsage where
  input : Nat
  output : Nat
deriving DecidableEq, Repr

/-- `TriageIssue.compilerOptions`. -/
structure CompilerOptions where
  emit : Option (List String)
deriving DecidableEq, Repr

/-- One suggested follow-up action (`TriageAction`): a type tag, a human
label, an icon glyph and a follow-up command string. -/
structure TriageAction where
  ty : String
  label : String
  icon : String
  command : String
deriving DecidableEq, Repr

/-- The per-item result record (`TriageIssue`), restricted to the fields
the embedded code paths read or write.  Free-text metadata fields
(title, url, author, …) and the floating-point duration are omitted as
the claims never inspect them. -/
structure TriageIssue where
  number : Nat
  category : Category
  reproStatus : ReproStatus
  verification : Verification
  reproCode : Option String
  emitter : Option String
  compilerOptions : Option CompilerOptions
  playgroundLink : Option String
  actions : List TriageAction
  model : Option String
  tokenUsage : Option TokenUsage
deriving DecidableEq, Repr

/-- A backlog item (`RawIssue`), restricted to the fields the embedded
code paths read. -/
structure RawIssue where
  number : Nat
  title : String
deriving DecidableEq, Repr

/-! ## Agent runner: `executeAgent` (src/triage/execute-agent.ts) -/

/-- State of one per-item result file `temp/results/issue-<n>.json`:
absent, present but unparseable, or present and parsing as a
`TriageIssue`. -/
inductive FileState where
  | absent
  | corrupt
  | valid (t : TriageIssue)
deriving DecidableEq, Repr

/-- `AgentResult` of src/triage/types.ts (the floating-point
`durationSeconds` is omitted). -/
structure AgentResult where
  issue : RawIssue
  triageIssue : Option TriageIssue
  tokenUsage : Option TokenUsage
  error : Option String
deriving DecidableEq, Repr

/-- Behaviour of the spawned copilot CLI process: the `execSync` outcome
and the state of the result file after the process has ended. -/
structure AgentProc where
  outcome : ExecOutcome
  fileAfter : FileState

/-- A run of `executeAgent`: the returned `AgentResult`, the number of
agent processes spawned, and the final state of the result file. -/
structure AgentRun where
  result : AgentResult
  spawns : Nat
  fileState : FileState

/-- `executeAgent` of src/triage/execute-agent.ts.  `pre` is the state of
the result file when the function starts; `proc` is the behaviour of the
spawned agent process; `parseTU` is `parseTokenUsage` (a pure textual
pattern match over the combined output, kept abstract).  On a parseable
pre-existing result the cached result is returned with no spawn; otherwise
the agent is spawned, an error string is recorded on abnormal exit, and
the result file is re-read, with parsed token usage injected (and the file
rewritten) when the cached entry is missing or zero-valued for it. -/
def executeAgent (issue : RawIssue) (pre : FileState) (proc : AgentProc)
    (parseTU : String → Option TokenUsage) : AgentRun :=
  match pre with
  | .valid existing =>
    { result :=
        { issue
          triageIssue := some existing
          tokenUsage := existing.tokenUsage
          error := none }
      spawns := 0
      fileState := .valid existing }
  | _ =>
    let agentOutput :=
      match proc.outcome with
      | .ok out => out
      | .err so se _ => so.getD "" ++ se.getD ""
    let error0 : Option String :=
      match proc.outcome with
      | .ok _ => none
      | .err _ _ status =>
        some ("Agent exited with code " ++
          (match status with
           | some n => toString n
           | none => "unknown"))
    let tokenUsage := parseTU agentOutput
    match proc.fileAfter with
    | .valid t =>
      let inject :=
        match tokenUsage, t.tokenUsage with
        | some _, none => true
        | some _, some u => u.input = 0
        | none, _ => false
      if inject then
        let t' := { t with tokenUsage := tokenUsage }
        { result := { issue, triageIssue := some t', tokenUsage, error := error0 }
          spawns := 1
          fileState := .valid t' }
      else
        { result := { issue, triageIssue := some t, tokenUsage, error := error0 }
          spawns := 1
          fileState := .valid t }
    | .corrupt =>
      { result :=
          { issue
            triageIssue := none
            tokenUsage
            error := some (error0.getD "" ++ "; Failed to parse result file") }
        spawns := 1
        fileState := .corrupt }
    | .absent =>
      { result :=
          { issue
            triageIssue := none
            tokenUsage
            error :=
              match error0 with
              | none => some "Agent did not produce a result file"
              | some e => some e }
        spawns := 1
        fileState := .absent }

/-! ## Aggregator: `aggregateResults` (src/triage/aggregate-results.ts)

The playground-link encoder (`buildPlaygroundLink`, lzutf8-based) and the
follow-up-action rule table (`buildActions`, closed over the repo option)
are collaborators passed in as pure functions; the aggregation logic never
inspects their outputs. -/

/-- Per-item post-processing applied to a parsed cache entry: derive a
playground link when the entry carries repro code but no link (JS
truthiness on both fields), then rebuild the suggested actions. -/
def processIssue (link : String → List String → String)
    (mkActions : TriageIssue → List TriageAction) (t : TriageIssue) :
    TriageIssue :=
  let t1 :=
    if truthyStr t.reproCode && !truthyStr t.playgroundLink then
      let emitters :=
        match t.compilerOptions with
        | some co =>
          match co.emit with
          | some es => es
          | none => if truthyStr t.emitter then [t.emitter.getD ""] else []
        | none => if truthyStr t.emitter then [t.emitter.getD ""] else []
      { t with playgroundLink := some (link (t.reproCode.getD "") emitters) }
    else t
  { t1 with actions := mkActions t1 }

/-- The collection loop of `aggregateResults`: for each backlog item in
order, read its result file; a parseable entry is post-processed and kept,
an absent or corrupt entry is skipped (with a warning). -/
def collectResults (cache : Nat → FileState)
    (link : String → List String → String)
    (mkActions : TriageIssue → List TriageAction) :
    List RawIssue → List TriageIssue
  | [] => []
  | i :: rest =>
    match cache i.number with
    | .valid t =>
      processIssue link mkActions t :: collectResults cache link mkActions rest
    | _ => collectResults cache link mkActions rest

/-- The `summary` object of the final report. -/
structure Summary where
  totalIssues : Nat
  bugs : Nat
  featureRequests : Nat
  docsBugs : Nat
  unknown : Nat
  withRepro : Nat
  withoutRepro : Nat
  generatedRepro : Nat
  stillReproduces : Nat
  fixed : Nat
  compileError : Nat
  notVerified : Nat
deriving DecidableEq, Repr

/-- The summary statistics, recomputed from the collected results. -/
def mkSummary (ts : List TriageIssue) : Summary :=
  { totalIssues := ts.length
    bugs := (ts.filter (fun i => i.category = .bug)).length
    featureRequests := (ts.filter (fun i => i.category = .featureRequest)).length
    docsBugs := (ts.filter (fun i => i.category = .docsBug)).length
    unknown := (ts.filter (fun i => i.category = .unknown)).length
    withRepro := (ts.filter (fun i => i.reproStatus = .hasRepro)).length
    withoutRepro := (ts.filter (fun i => i.reproStatus = .missing)).length
    generatedRepro := (ts.filter (fun i => i.reproStatus = .generated)).length
    stillReproduces := (ts.filter (fun i => i.verification = .stillReproduces)).length
    fixed := (ts.filter (fun i => i.verification = .fixed)).length
    compileError := (ts.filter (fun i => i.verification = .compileError)).length
    notVerified := (ts.filter (fun i => i.verification = .notVerified)).length }

/-- Aggregate token usage (`i.tokenUsage?.input ?? 0` summed, likewise
for output). -/
structure TokenTotals where
  totalInput : Nat
  totalOutput : Nat
deriving DecidableEq, Repr

/-- The token-usage totals of the report. -/
def mkTokenTotals (ts : List TriageIssue) : TokenTotals :=
  { totalInput := ts.foldl (fun s i => s + ((i.tokenUsage.map TokenUsage.input).getD 0)) 0
    totalOutput := ts.foldl (fun s i => s + ((i.tokenUsage.map TokenUsage.output).getD 0)) 0 }

/-- The `modelCounts` Map: increment the count of an existing key in
place, or append a new key with count 1 (Map insertion order). -/
def bumpModel : List (String × Nat) → String → List (String × Nat)
  | [], m => [(m, 1)]
  | (k, n) :: rest, m =>
    if k = m then (k, n + 1) :: rest else (k, n) :: bumpModel rest m

/-- One step of the `modelCounts` loop: issues with a falsy `model`
(null or empty) are skipped, the rest bump their model's count. -/
def modelCountsStep (acc : List (String × Nat)) (t : TriageIssue) :
    List (String × Nat) :=
  match t.model with
  | some m => if m = "" then acc else bumpModel acc m
  | none => acc

/-- Build `modelCounts` over the collected results. -/
def modelCounts (ts : List TriageIssue) : List (String × Nat) :=
  ts.foldl modelCountsStep []

/-- Stable insertion into a list sorted by strictly descending count —
the behaviour of the ES2019 stable `Array.prototype.sort` with comparator
`(a, b) => b[1] - a[1]` on the element being placed. -/
def insertByCountDesc (x : String × Nat) : List (String × Nat) → List (String × Nat)
  | [] => [x]
  | y :: ys => if y.2 > x.2 then y :: insertByCountDesc x ys else x :: y :: ys

/-- Stable sort by descending count. -/
def sortByCountDesc : List (String × Nat) → List (String × Nat)
  | [] => []
  | x :: xs => insertByCountDesc x (sortByCountDesc xs)

/-- `detectedModel`: the key of the first entry of the count-sorted
`modelCounts`, defaulting to the configured model
(`sort(...)[0]?.[0] ?? opts.model`). -/
def detectedModel (ts : List TriageIssue) (configModel : String) : String :=
  match sortByCountDesc (modelCounts ts) with
  | [] => configModel
  | (m, _) :: _ => m

/-- The final report (`TriageResult`), restricted to the fields derived
from the collected results; the wall-clock timing block is floating point
and omitted. -/
structure TriageReport where
  compilerVersion : String
  model : String
  tokenUsage : TokenTotals
  summary : Summary
  issues : List TriageIssue
deriving DecidableEq, Repr

/-- `aggregateResults` of src/triage/aggregate-results.ts: collect the
parseable cache entries over the backlog in order; return `none` when no
result was found, otherwise the rebuilt report. -/
def aggregateResults (rawIssues : List RawIssue) (configModel : String)
    (cache : Nat → FileState) (link : String → List String → String)
    (mkActions : TriageIssue → List TriageAction) : Option TriageReport :=
  let triageIssues := collectResults cache link mkActions rawIssues
  if triageIssues.length = 0 then none
  else
    some
      { compilerVersion := "latest"
        model := detectedModel triageIssues configModel
        tokenUsage := mkTokenTotals triageIssues
        summary := mkSummary triageIssues
        issues := triageIssues }

/-! ## Specification-side model detection (§4.6 of the spec)

“The detected external-agent model is reported as the most frequently
occurring model value across all items (ties broken by first occurrence in
iteration order), defaulting to the configured model if no item reports
one.”  The definitions below follow those words: list the reported model
values in first-occurrence order, count each one's occurrences over the
items, and pick the first value attaining the maximal count. -/

/-- One step of the first-occurrence listing of truthy model values. -/
def firstModelsStep (acc : List String) (t : TriageIssue) : List String :=
  match t.model with
  | some m => if m = "" ∨ m ∈ acc then acc else acc ++ [m]
  | none => acc

/-- The distinct truthy model values, in first-occurrence order. -/
def firstModels (ts : List TriageIssue) : List String :=
  ts.foldl firstModelsStep []

/-- How many items report the model value `m`. -/
def modelFreq (ts : List TriageIssue) (m : String) : Nat :=
  (ts.filter (fun t => t.model = some m)).length

/-- One step of picking the most frequent value: replace the current best
only on a strictly greater frequency, so ties keep the earlier value. -/
def specPickStep (f : String → Nat) (best : Option String) (m : String) :
    Option String :=
  match best with
  | none => some m
  | some b => if f m > f b then some m else best

/-- The most frequently occurring truthy model value, ties broken in
favour of the value occurring first; `none` when no item reports one. -/
def specDetectedModel (ts : List TriageIssue) : Option String :=
  (firstModels ts).foldl (specPickStep (modelFreq ts)) none

/-- The claim's reading of model detection, with “reports a model” taken
as a non-`null` model field (so an empty-string model still counts): the
distinct non-`null` model values in first-occurrence order. -/
def firstModelsNonNull (ts : List TriageIssue) : List String :=
  ts.foldl
    (fun acc t =>
      match t.model with
      | some m => if m ∈ acc then acc else acc ++ [m]
      | none => acc)
    []

/-- The claim's reading of the detected model: most frequent non-`null`
model value, ties to first occurrence. -/
def claimDetectedModel (ts : List TriageIssue) : Option String :=
  (firstModelsNonNull ts).foldl (specPickStep (modelFreq ts)) none

/-! ## Auxiliary definitions for the proofs -/

/-- Whether a result file exists and parses. -/
def FileState.isValid : FileState → Bool
  | .valid _ => true
  | _ => false

/-- First entry attaining the maximal count, scanning left to right and
replacing only on a strictly greater count. -/
def firstMaxFrom (b : String × Nat) (l : List (String × Nat)) : String × Nat :=
  l.foldl (fun b x => if x.2 > b.2 then x else b) b

/-- First entry of a nonempty list attaining the maximal count. -/
def firstMaxEntry : List (String × Nat) → Option (String × Nat)
  | [] => none
  | x :: xs => some (firstMaxFrom x xs)

/-- Name-level analogue of `firstMaxFrom` for a frequency function. -/
def pickFreqFrom (f : String → Nat) (b : String) (ms : List String) : String :=
  ms.foldl (fun b m => if f m > f b then m else b) b

/-- Sample backlog item. -/
def sampleRaw : RawIssue := { number := 1, title := "sample" }

/-- Second sample backlog item. -/
def sampleRaw2 : RawIssue := { number := 2, title := "other" }

/-- Sample parsed triage result. -/
def sampleIssue : TriageIssue :=
  { number := 1
    category := .bug
    reproStatus := .hasRepro
    verification := .stillReproduces
    reproCode := none
    emitter := none
    compilerOptions := none
    playgroundLink := none
    actions := []
    model := some "claude-sonnet-4"
    tokenUsage := none }

/-- Sample triage result whose model field is the empty string. -/
def emptyModelIssue : TriageIssue :=
  { sampleIssue with number := 3, model := some "" }

/-- Placeholder report used to destructure `Option TriageReport` values at
concrete inputs. -/
def junkReport : TriageReport :=
  { compilerVersion := ""
    model := ""
    tokenUsage := { totalInput := 0, totalOutput := 0 }
    summary :=
      { totalIssues := 0, bugs := 0, featureRequests := 0, docsBugs := 0
        unknown := 0, withRepro := 0, withoutRepro := 0, generatedRepro := 0
        stillReproduces := 0, fixed := 0, compileError := 0, notVerified := 0 }
    issues := [] }

/-- Sample cache holding one valid entry for item 1. -/
def sampleCache : Nat → FileState :=
  fun n => if n = 1 then .valid sampleIssue else .absent

/-- Cache whose only entry reports an empty-string model. -/
def emptyModelCache : Nat → FileState :=
  fun n => if n = 1 then .valid emptyModelIssue else .absent

/-- The source snippet of the spec's dependency-detection scenario:
two `@`-scoped imports and one relative import. -/
def scenarioSnippet : String :=
  "import \"@scope/pkg-a\";\nimport \"@scope/pkg-b\";\nimport \"./other.tsp\";\n"

/-- A snippet with a repeated import declaration. -/
def duplicateSnippet : String :=
  "import \"@scope/pkg-a\"; import \"@scope/pkg-a\";"

/-- Sample emitter output directory: one small readable file, one
unreadable file, and a subdirectory with a readable file. -/
def sampleOutDir : FsEntries :=
  .cons "openapi.yaml" (.file true "openapi: 3.0.0")
    (.cons "blob.bin" (.file false "\x00")
      (.cons "sub" (.dir (.cons "extra.json" (.file true "\x7b\x7d") .nil)) .nil))

/-- The collection filter of `collectOutputFiles`: keep a readable file
whose content is shorter than 50,000 characters, dropping the
readability flag. -/
def keepFile (x : String × Bool × String) : Option (String × String) :=
  if x.2.1 && decide (x.2.2.length < 50000) then some (x.1, x.2.2) else none

/-- Sample issue reporting model "m-alpha". -/
def issueA : TriageIssue := { sampleIssue with number := 11, model := some "m-alpha" }

/-- Sample issue reporting model "m-beta". -/
def issueB : TriageIssue := { sampleIssue with number := 12, model := some "m-beta" }

/-- Second sample issue reporting model "m-beta". -/
def issueB2 : TriageIssue := { sampleIssue with number := 13, model := some "m-beta" }

/-- Cache with three valid entries reporting models
"m-alpha", "m-beta", "m-beta". -/
def modelCache : Nat → FileState := fun n =>
  if n = 11 then .valid issueA
  else if n = 12 then .valid issueB
  else if n = 13 then .valid issueB2
  else .absent

/-! # Theorems -/

/-- **C2**: whenever the dependency-installation step of the verify script
fails, the emitted verdict has `success = false`, `exitCode = -1`, a
diagnostics string prefixed with "Install failed", a null `emitterOutput`,
and the compiler invocation is never attempted in that run. -/
theorem c2_install_failed_verdict (emitter : Option String)
    (so se : Option String) (st : Option Int) (compile : ExecOutcome)
    (outDir : Option FsEntries) :
    (verifyMain emitter (.err so se st) compile outDir).verdict.success = false ∧
    (verifyMain emitter (.err so se st) compile outDir).verdict.exitCode = -1 ∧
    (∃ rest, (verifyMain emitter (.err so se st) compile outDir).verdict.diagnostics
        = "Install failed: " ++ rest) ∧
    (verifyMain emitter (.err so se st) compile outDir).verdict.emitterOutput = none ∧
    (verifyMain emitter (.err so se st) compile outDir).compileRan = false :=
  ⟨rfl, rfl, ⟨_, rfl⟩, rfl, rfl⟩

/-- **C3**: after a successful install, a compiler exit 0 yields
`success = true`, `exitCode = 0` and diagnostics equal to the compiler's
stdout (or the fixed placeholder when stdout is empty); a compiler failure
yields `success = false`, diagnostics equal to captured stdout followed by
captured stderr, and `exitCode` equal to the process exit status, 1 when
no status is available. -/
theorem c3_compile_verdict (emitter : Option String) (iout out : String)
    (so se : Option String) (st : Option Int) (outDir : Option FsEntries) :
    ((verifyMain emitter (.ok iout) (.ok out) outDir).verdict.success = true ∧
     (verifyMain emitter (.ok iout) (.ok out) outDir).verdict.exitCode = 0 ∧
     (verifyMain emitter (.ok iout) (.ok out) outDir).verdict.diagnostics =
       (if out = "" then "(compiled successfully, no diagnostics)" else out)) ∧
    ((verifyMain emitter (.ok iout) (.err so se st) outDir).verdict.success = false ∧
     (verifyMain emitter (.ok iout) (.err so se st) outDir).verdict.diagnostics =
       so.getD "" ++ se.getD "" ∧
     (verifyMain emitter (.ok iout) (.err so se st) outDir).verdict.exitCode =
       st.getD 1) :=
  ⟨⟨rfl, rfl, rfl⟩, ⟨rfl, rfl, rfl⟩⟩

/-- **C1**: on an issue whose result file already exists and parses,
`executeAgent` returns the cached result with a null error and zero
process spawns, leaves the cache entry unchanged, and a second run on the
resulting cache state again spawns nothing and returns the identical
`TriageIssue`. -/
theorem c1_cache_hit_idempotent (issue : RawIssue) (t : TriageIssue)
    (proc proc2 : AgentProc) (pt pt2 : String → Option TokenUsage) :
    (executeAgent issue (.valid t) proc pt).spawns = 0 ∧
    (executeAgent issue (.valid t) proc pt).result.error = none ∧
    (executeAgent issue (.valid t) proc pt).result.triageIssue = some t ∧
    (executeAgent issue (.valid t) proc pt).fileState = .valid t ∧
    (executeAgent issue (executeAgent issue (.valid t) proc pt).fileState
        proc2 pt2).spawns = 0 ∧
    (executeAgent issue (executeAgent issue (.valid t) proc pt).fileState
        proc2 pt2).result.triageIssue
      = (executeAgent issue (.valid t) proc pt).result.triageIssue :=
  ⟨rfl, rfl, rfl, rfl, rfl, rfl⟩

/-- **C10**: every `AgentResult` returned by `executeAgent` carries a
triage result or a non-null error — never neither. -/
theorem c10_result_or_error (issue : RawIssue) (pre : FileState)
    (proc : AgentProc) (pt : String → Option TokenUsage) :
    (executeAgent issue pre proc pt).result.triageIssue.isSome = true ∨
    (executeAgent issue pre proc pt).result.error.isSome = true := by
  rcases proc with ⟨outcome, fileAfter⟩
  cases pre <;> cases fileAfter <;> cases outcome <;>
    simp [executeAgent] <;> split <;> simp

/-- **C9** (counterexample): when the agent process exits cleanly but no
result file exists afterwards, the recorded error string is
"Agent did not produce a result file", not "no result produced." as the
claim states. -/
theorem c9_counterexample :
    (executeAgent sampleRaw .absent ⟨.ok "", .absent⟩ (fun _ => none)).result.error
        = some "Agent did not produce a result file" ∧
    (executeAgent sampleRaw .absent ⟨.ok "", .absent⟩ (fun _ => none)).result.error
        ≠ some "no result produced." :=
  ⟨rfl, by decide⟩

/-- **C9** (amended): whenever the agent ran and no parseable cache entry
exists afterwards, the job fails — the returned result has a non-null
error and a null triage result; when the agent exited cleanly and the file
is absent, the error is exactly "Agent did not produce a result file". -/
theorem c9_no_parseable_result_fails (issue : RawIssue) (pre : FileState)
    (proc : AgentProc) (pt : String → Option TokenUsage)
    (hpre : pre.isValid = false) (hafter : proc.fileAfter.isValid = false) :
    (executeAgent issue pre proc pt).result.error.isSome = true ∧
    (executeAgent issue pre proc pt).result.triageIssue = none ∧
    (∀ out, proc.outcome = .ok out → proc.fileAfter = .absent →
      (executeAgent issue pre proc pt).result.error
        = some "Agent did not produce a result file") := by
  rcases proc with ⟨outcome, fileAfter⟩
  cases pre <;> cases fileAfter <;> cases outcome <;>
    simp_all [executeAgent, FileState.isValid]

/-- Witness for `c9_no_parseable_result_fails` at a concrete run. -/
theorem c9_no_parseable_result_fails_witness :
    (FileState.absent.isValid = false ∧
      (AgentProc.mk (.ok "") .absent).fileAfter.isValid = false) ∧
    (executeAgent sampleRaw .absent ⟨.ok "", .absent⟩ (fun _ => none)).result.error.isSome
        = true ∧
    (executeAgent sampleRaw .absent ⟨.ok "", .absent⟩ (fun _ => none)).result.triageIssue
        = none ∧
    (∀ out, (AgentProc.mk (.ok "") .absent).outcome = .ok out →
      (AgentProc.mk (.ok "") .absent).fileAfter = .absent →
      (executeAgent sampleRaw .absent ⟨.ok "", .absent⟩ (fun _ => none)).result.error
        = some "Agent did not produce a result file") :=
  ⟨⟨rfl, rfl⟩,
    c9_no_parseable_result_fails sampleRaw .absent ⟨.ok "", .absent⟩
      (fun _ => none) rfl rfl⟩

/-- **C5** (counterexample): on the spec's own scenario source, the
detector's return value also contains the non-`@`-prefixed import — it is
not the two-element set the claim states. -/
theorem c5_counterexample :
    detectImports scenarioSnippet
        = ["@scope/pkg-a", "@scope/pkg-b", "./other.tsp"] ∧
    detectImports scenarioSnippet ≠ ["@scope/pkg-a", "@scope/pkg-b"] ∧
    "./other.tsp" ∈ detectImports scenarioSnippet := by
  refine ⟨by decide, by decide, by decide⟩

/-- **C5** (amended): the detector returns every module identifier
referenced by a textual import declaration, in order, with duplicates and
non-`@`-prefixed identifiers retained; the de-duplication and `@`-filter
happen during manifest synthesis, which on the scenario source keeps
exactly the baseline compiler plus the two `@`-scoped packages. -/
theorem c5_detector_returns_all_imports :
    detectImports scenarioSnippet
        = ["@scope/pkg-a", "@scope/pkg-b", "./other.tsp"] ∧
    detectImports duplicateSnippet = ["@scope/pkg-a", "@scope/pkg-a"] ∧
    manifestDeps scenarioSnippet none
        = ["@typespec/compiler", "@scope/pkg-a", "@scope/pkg-b"] := by
  refine ⟨by decide, by decide, by decide⟩

/-- Membership in a JavaScript-object key insertion. -/
theorem mem_addDepKey {ks : List String} {k k' : String} :
    k ∈ addDepKey ks k' ↔ k ∈ ks ∨ k = k' := by
  unfold addDepKey
  split
  · rename_i h
    constructor
    · exact fun hk => Or.inl hk
    · rintro (hk | rfl)
      · exact hk
      · exact h
  · simp

/-- Membership in the import-adding fold of the manifest synthesis. -/
theorem mem_manifest_foldl (l : List String) :
    ∀ (init : List String) (k : String),
      k ∈ l.foldl (fun ks imp => if atScoped imp then addDepKey ks imp else ks) init ↔
        k ∈ init ∨ (k ∈ l ∧ atScoped k = true) := by
  induction l with
  | nil => simp
  | cons a l ih =>
    intro init k
    rw [List.foldl_cons, ih]
    by_cases ha : atScoped a = true
    · simp only [ha, if_true, mem_addDepKey, List.mem_cons]
      constructor
      · rintro ((hk | rfl) | hl)
        · exact Or.inl hk
        · exact Or.inr ⟨Or.inl rfl, ha⟩
        · exact Or.inr ⟨Or.inr hl.1, hl.2⟩
      · rintro (hk | ⟨(rfl | hl), hsc⟩)
        · exact Or.inl (Or.inl hk)
        · exact Or.inl (Or.inr rfl)
        · exact Or.inr ⟨hl, hsc⟩
    · simp only [ha, if_false, List.mem_cons]
      constructor
      · rintro (hk | hl)
        · exact Or.inl hk
        · exact Or.inr ⟨Or.inr hl.1, hl.2⟩
      · rintro (hk | ⟨(rfl | hl), hsc⟩)
        · exact Or.inl hk
        · exact absurd hsc ha
        · exact Or.inr ⟨hl, hsc⟩

/-- **C6**: the dependency manifest written into the sandbox lists exactly
the baseline `@typespec/compiler` dependency, every detected import
identifier that starts with `@`, and the emitter package when one was
requested — and nothing else. -/
theorem c6_manifest_exact (code : String) (emitter : Option String) (k : String) :
    k ∈ manifestDeps code emitter ↔
      k = "@typespec/compiler" ∨
      (k ∈ detectImports code ∧ atScoped k = true) ∨
      (truthyStr emitter = true ∧ emitter = some k) := by
  unfold manifestDeps
  cases emitter with
  | none =>
    simp only [mem_manifest_foldl, List.mem_singleton, truthyStr]
    constructor
    · rintro (h | h)
      · exact Or.inl h
      · exact Or.inr (Or.inl h)
    · rintro (h | h | ⟨h, _⟩)
      · exact Or.inl h
      · exact Or.inr h
      · exact absurd h (by simp)
  | some e =>
    by_cases he : e = ""
    · subst he
      simp only [if_true, mem_manifest_foldl, List.mem_singleton, truthyStr]
      constructor
      · rintro (h | h)
        · exact Or.inl h
        · exact Or.inr (Or.inl h)
      · rintro (h | h | ⟨h, _⟩)
        · exact Or.inl h
        · exact Or.inr h
        · simp at h
    · simp only [he, if_false, mem_addDepKey, mem_manifest_foldl,
        List.mem_singleton, truthyStr]
      constructor
      · rintro ((h | h) | rfl)
        · exact Or.inl h
        · exact Or.inr (Or.inl h)
        · exact Or.inr (Or.inr ⟨by simp [he], rfl⟩)
      · rintro (h | h | ⟨_, h⟩)
        · exact Or.inl (Or.inl h)
        · exact Or.inl (Or.inr h)
        · exact Or.inr (Option.some_injective _ h.symm)

mutual

/-- `collectOutputFiles` on one entry keeps exactly the readable regular
files shorter than 50,000 characters. -/
theorem collectEntry_eq_filter : ∀ (e : FsEntry) (p : String),
    collectEntry e p = (allFilesEntry e p).filterMap keepFile
  | .file r c, p => by
    cases r with
    | false => simp [collectEntry, allFilesEntry, keepFile]
    | true =>
      by_cases h : c.length < 50000 <;>
        simp [collectEntry, allFilesEntry, keepFile, List.filterMap_cons, h]
  | .dir es, p => by
    simpa [collectEntry, allFilesEntry] using collectEntries_eq_filter es p

/-- `collectOutputFiles` over a directory's entries keeps exactly the
readable regular files shorter than 50,000 characters. -/
theorem collectEntries_eq_filter : ∀ (es : FsEntries) (p : String),
    collectEntries es p = (allFilesEntries es p).filterMap keepFile
  | .nil, _ => rfl
  | .cons name e rest, p => by
    simp [collectEntries, allFilesEntries, List.filterMap_append,
      collectEntry_eq_filter e (childRel p name),
      collectEntries_eq_filter rest p]

end

/-- **C4**: with an emitter requested, the verdict's `emitterOutput` maps
each regular file found recursively under the emitter output directory
whose textual content is shorter than 50,000 characters to that content,
keyed by path relative to that directory, silently skipping unreadable
files; the collection is performed both when compilation succeeds and when
it fails; with no emitter requested, `emitterOutput` is null. -/
theorem c4_emitter_output (e : String) (he : e ≠ "") (iout out : String)
    (so se : Option String) (st : Option Int) (outDir : Option FsEntries) :
    (verifyMain (some e) (.ok iout) (.ok out) outDir).verdict.emitterOutput
        = some (collectTop outDir) ∧
    (verifyMain (some e) (.ok iout) (.err so se st) outDir).verdict.emitterOutput
        = some (collectTop outDir) ∧
    (∀ es, collectTop (some es) = (allFilesEntries es "").filterMap keepFile) ∧
    collectTop none = [] ∧
    (verifyMain none (.ok iout) (.ok out) outDir).verdict.emitterOutput = none ∧
    (verifyMain none (.ok iout) (.err so se st) outDir).verdict.emitterOutput
        = none := by
  refine ⟨?_, ?_, ?_, rfl, rfl, rfl⟩
  · simp [verifyMain, truthyStr, he]
  · simp [verifyMain, truthyStr, he]
  · intro es
    simpa [collectTop] using collectEntries_eq_filter es ""

/-- Witness for `c4_emitter_output` on a concrete output tree with a
readable file, an unreadable file and a nested readable file. -/
theorem c4_emitter_output_witness :
    ("@typespec/openapi3" ≠ "" ∧
      collectTop (some sampleOutDir)
        = [("openapi.yaml", "openapi: 3.0.0"), ("sub/extra.json", "\x7b\x7d")]) ∧
    (verifyMain (some "@typespec/openapi3") (.ok "") (.ok "")
        (some sampleOutDir)).verdict.emitterOutput
      = some (collectTop (some sampleOutDir)) ∧
    (verifyMain (some "@typespec/openapi3") (.ok "") (.err none none none)
        (some sampleOutDir)).verdict.emitterOutput
      = some (collectTop (some sampleOutDir)) ∧
    (∀ es, collectTop (some es) = (allFilesEntries es "").filterMap keepFile) ∧
    collectTop none = [] ∧
    (verifyMain none (.ok "") (.ok "")
        (some sampleOutDir)).verdict.emitterOutput = none ∧
    (verifyMain none (.ok "") (.err none none none)
        (some sampleOutDir)).verdict.emitterOutput = none :=
  ⟨⟨by decide, by decide⟩,
    (c4_emitter_output "@typespec/openapi3" (by decide) "" "" none none none
      (some sampleOutDir)).1,
    (c4_emitter_output "@typespec/openapi3" (by decide) "" "" none none none
      (some sampleOutDir)).2.1,
    (c4_emitter_output "@typespec/openapi3" (by decide) "" "" none none none
      (some sampleOutDir)).2.2.1,
    (c4_emitter_output "@typespec/openapi3" (by decide) "" "" none none none
      (some sampleOutDir)).2.2.2.1,
    (c4_emitter_output "@typespec/openapi3" (by decide) "" "" none none none
      (some sampleOutDir)).2.2.2.2.1,
    (c4_emitter_output "@typespec/openapi3" (by decide) "" "" none none none
      (some sampleOutDir)).2.2.2.2.2⟩

/-- The collection loop keeps exactly one entry per in-scope issue whose
result file exists and parses. -/
theorem collectResults_length (cache : Nat → FileState)
    (link : String → List String → String)
    (mkActions : TriageIssue → List TriageAction) :
    ∀ raws : List RawIssue,
      (collectResults cache link mkActions raws).length
        = (raws.filter (fun i => (cache i.number).isValid)).length := by
  intro raws
  induction raws with
  | nil => rfl
  | cons i rest ih =>
    cases h : cache i.number <;>
      simp [collectResults, h, FileState.isValid, List.filter_cons, ih]

/-- The four category counts partition any list of triage results. -/
theorem category_counts_partition :
    ∀ ts : List TriageIssue,
      (ts.filter (fun i => i.category = .bug)).length +
      (ts.filter (fun i => i.category = .featureRequest)).length +
      (ts.filter (fun i => i.category = .docsBug)).length +
      (ts.filter (fun i => i.category = .unknown)).length = ts.length := by
  intro ts
  induction ts with
  | nil => rfl
  | cons t rest ih =>
    cases h : t.category <;> simp [List.filter_cons, h] <;> omega

/-- **C7**: whenever the aggregator produces a report, its
`summary.totalIssues` equals the number of in-scope issues whose cached
result file exists and parses, and the per-category counts sum to
`totalIssues`. -/
theorem c7_aggregate_consistency (raws : List RawIssue) (cfg : String)
    (cache : Nat → FileState) (link : String → List String → String)
    (mkActions : TriageIssue → List TriageAction) (r : TriageReport)
    (h : aggregateResults raws cfg cache link mkActions = some r) :
    r.summary.totalIssues
        = (raws.filter (fun i => (cache i.number).isValid)).length ∧
    r.summary.bugs + r.summary.featureRequests + r.summary.docsBugs
        + r.summary.unknown = r.summary.totalIssues := by
  simp only [aggregateResults] at h
  split at h
  · exact absurd h (by simp)
  · injection h with h
    subst h
    refine ⟨collectResults_length cache link mkActions raws, ?_⟩
    exact category_counts_partition (collectResults cache link mkActions raws)

/-- Witness for `c7_aggregate_consistency` on a two-item backlog with one
cached result. -/
theorem c7_aggregate_consistency_witness :
    aggregateResults [sampleRaw, sampleRaw2] "m" sampleCache (fun _ _ => "")
        (fun _ => [])
      = some ((aggregateResults [sampleRaw, sampleRaw2] "m" sampleCache
          (fun _ _ => "") (fun _ => [])).getD junkReport) ∧
    (((aggregateResults [sampleRaw, sampleRaw2] "m" sampleCache (fun _ _ => "")
          (fun _ => [])).getD junkReport).summary.totalIssues
        = ([sampleRaw, sampleRaw2].filter
            (fun i => (sampleCache i.number).isValid)).length ∧
      ((aggregateResults [sampleRaw, sampleRaw2] "m" sampleCache (fun _ _ => "")
          (fun _ => [])).getD junkReport).summary.bugs +
        ((aggregateResults [sampleRaw, sampleRaw2] "m" sampleCache (fun _ _ => "")
          (fun _ => [])).getD junkReport).summary.featureRequests +
        ((aggregateResults [sampleRaw, sampleRaw2] "m" sampleCache (fun _ _ => "")
          (fun _ => [])).getD junkReport).summary.docsBugs +
        ((aggregateResults [sampleRaw, sampleRaw2] "m" sampleCache (fun _ _ => "")
          (fun _ => [])).getD junkReport).summary.unknown
        = ((aggregateResults [sampleRaw, sampleRaw2] "m" sampleCache
            (fun _ _ => "") (fun _ => [])).getD junkReport).summary.totalIssues) :=
  ⟨rfl,
    c7_aggregate_consistency [sampleRaw, sampleRaw2] "m" sampleCache
      (fun _ _ => "") (fun _ => [])
      ((aggregateResults [sampleRaw, sampleRaw2] "m" sampleCache (fun _ _ => "")
        (fun _ => [])).getD junkReport) rfl⟩

/-- Scanning left-to-right with strict replacement computes the first
entry attaining the maximal count. -/
theorem firstMaxFrom_eq (l : List (String × Nat)) :
    ∀ b, firstMaxFrom b l =
      (firstMaxEntry l).elim b (fun y => if y.2 > b.2 then y else b) := by
  induction l with
  | nil => intro b; rfl
  | cons z zs ih =>
    intro b
    show firstMaxFrom (if z.2 > b.2 then z else b) zs = _
    have hz : firstMaxEntry (z :: zs) = some (firstMaxFrom z zs) := rfl
    rw [hz, Option.elim_some, ih, ih z]
    cases hfm : firstMaxEntry zs with
    | none => simp
    | some y =>
      simp only [Option.elim_some]
      split_ifs <;> first | rfl | omega

/-- The head of the stable count-descending sort is the first entry
attaining the maximal count. -/
theorem head_sortByCountDesc :
    ∀ l : List (String × Nat), (sortByCountDesc l).head? = firstMaxEntry l := by
  intro l
  induction l with
  | nil => rfl
  | cons x xs ih =>
    show (insertByCountDesc x (sortByCountDesc xs)).head?
        = some (firstMaxFrom x xs)
    rw [firstMaxFrom_eq, ← ih]
    cases hs : sortByCountDesc xs with
    | nil => rfl
    | cons y ys =>
      show (if y.2 > x.2 then y :: insertByCountDesc x ys else x :: y :: ys).head?
          = _
      simp only [List.head?_cons, Option.elim_some]
      split_ifs <;> rfl

/-- Unfolding the per-item frequency over a cons cell. -/
theorem modelFreq_cons (t : TriageIssue) (ts : List TriageIssue) (m : String) :
    modelFreq (t :: ts) m
      = (if t.model = some m then 1 else 0) + modelFreq ts m := by
  by_cases h : t.model = some m <;>
    simp [modelFreq, List.filter_cons, h] <;> omega

/-- Membership in the first-occurrence model listing. -/
theorem mem_firstModels_foldl :
    ∀ (ts : List TriageIssue) (ms : List String) (m : String),
      m ∈ ts.foldl firstModelsStep ms ↔
        m ∈ ms ∨ (m ≠ "" ∧ ∃ t ∈ ts, t.model = some m) := by
  intro ts
  induction ts with
  | nil => simp
  | cons t ts ih =>
    intro ms m
    rw [List.foldl_cons, ih]
    cases ht : t.model with
    | none => simp [firstModelsStep, ht]
    | some a =>
      simp only [firstModelsStep, ht]
      by_cases ha : a = "" ∨ a ∈ ms
      · rw [if_pos ha]
        constructor
        · rintro (h | h)
          · exact Or.inl h
          · exact Or.inr ⟨h.1, h.2.imp fun t' h' => ⟨List.mem_cons_of_mem _ h'.1, h'.2⟩⟩
        · rintro (h | ⟨hne, t', ht', hm⟩)
          · exact Or.inl h
          · rcases List.mem_cons.mp ht' with rfl | ht''
            · rw [ht] at hm
              injection hm with hm
              subst hm
              rcases ha with ha | ha
              · exact absurd ha hne
              · exact Or.inl ha
            · exact Or.inr ⟨hne, t', ht'', hm⟩
      · rw [if_neg ha]
        push_neg at ha
        constructor
        · rintro (h | h)
          · rcases List.mem_append.mp h with h' | h'
            · exact Or.inl h'
            · rw [List.mem_singleton] at h'
              subst h'
              exact Or.inr ⟨ha.1, t, List.mem_cons_self _ _, ht⟩
          · exact Or.inr ⟨h.1, h.2.imp fun t' h' => ⟨List.mem_cons_of_mem _ h'.1, h'.2⟩⟩
        · rintro (h | ⟨hne, t', ht', hm⟩)
          · exact Or.inl (List.mem_append_left _ h)
          · rcases List.mem_cons.mp ht' with rfl | ht''
            · rw [ht] at hm
              injection hm with hm
              subst hm
              exact Or.inl (List.mem_append_right _ (List.mem_singleton.mpr rfl))
            · exact Or.inr ⟨hne, t', ht'', hm⟩

/-- Bumping a key present in a mapped key set increments exactly that
key's count. -/
theorem bumpModel_map_mem :
    ∀ (ms : List String) (f : String → Nat) (m : String),
      m ∈ ms → ms.Nodup →
      bumpModel (ms.map fun k => (k, f k)) m
        = ms.map fun k => (k, if k = m then f k + 1 else f k) := by
  intro ms
  induction ms with
  | nil => simp
  | cons a ms ih =>
    intro f m hm hnd
    simp only [List.map_cons, bumpModel]
    by_cases ha : a = m
    · subst ha
      rw [if_pos rfl]
      simp only [if_pos rfl]
      have hnotin : a ∉ ms := (List.nodup_cons.mp hnd).1
      congr 1
      apply List.map_congr_left
      intro k hk
      have : k ≠ a := fun h => hnotin (h ▸ hk)
      simp [this]
    · rw [if_neg ha]
      have hm' : m ∈ ms := by
        rcases List.mem_cons.mp hm with rfl | h
        · exact absurd rfl ha
        · exact h
      rw [ih f m hm' (List.nodup_cons.mp hnd).2]
      simp [ha]

/-- Bumping a key absent from a mapped key set appends it with count 1. -/
theorem bumpModel_map_notMem :
    ∀ (ms : List String) (f : String → Nat) (m : String),
      m ∉ ms →
      bumpModel (ms.map fun k => (k, f k)) m
        = ms.map (fun k => (k, f k)) ++ [(m, 1)] := by
  intro ms
  induction ms with
  | nil => simp [bumpModel]
  | cons a ms ih =>
    intro f m hm
    have ha : a ≠ m := fun h => hm (h ▸ List.mem_cons_self a ms)
    simp only [List.map_cons, bumpModel, if_neg ha]
    rw [ih f m (fun h => hm (List.mem_cons_of_mem _ h))]
    simp

/-- The Map-building loop of `modelCounts` computes, over the
first-occurrence key listing, each key's occurrence frequency. -/
theorem counts_foldl_eq :
    ∀ (ts : List TriageIssue) (ms : List String) (f : String → Nat),
      ms.Nodup → (∀ m ∈ ms, m ≠ "") → (∀ m, m ∉ ms → f m = 0) →
      ts.foldl modelCountsStep (ms.map fun k => (k, f k))
        = (ts.foldl firstModelsStep ms).map fun k => (k, f k + modelFreq ts k) := by
  intro ts
  induction ts with
  | nil =>
    intro ms f _ _ _
    simp [modelFreq]
  | cons t ts ih =>
    intro ms f hnd hne hf0
    rw [List.foldl_cons, List.foldl_cons]
    cases ht : t.model with
    | none =>
      have h1 : modelCountsStep (ms.map fun k => (k, f k)) t
          = ms.map fun k => (k, f k) := by simp [modelCountsStep, ht]
      have h2 : firstModelsStep ms t = ms := by simp [firstModelsStep, ht]
      rw [h1, h2, ih ms f hnd hne hf0]
      simp [modelFreq_cons, ht]
    | some a =>
      by_cases ha : a = ""
      · subst ha
        have h1 : modelCountsStep (ms.map fun k => (k, f k)) t
            = ms.map fun k => (k, f k) := by simp [modelCountsStep, ht]
        have h2 : firstModelsStep ms t = ms := by simp [firstModelsStep, ht]
        rw [h1, h2, ih ms f hnd hne hf0]
        apply List.map_congr_left
        intro k hk
        have hk' : k ≠ "" := by
          rcases (mem_firstModels_foldl ts ms k).mp hk with h | h
          · exact hne k h
          · exact h.1
        simp [modelFreq_cons, ht, Ne.symm hk']
      · by_cases hmem : a ∈ ms
        · have h1 : modelCountsStep (ms.map fun k => (k, f k)) t
              = bumpModel (ms.map fun k => (k, f k)) a := by
            simp [modelCountsStep, ht, ha]
          have h2 : firstModelsStep ms t = ms := by
            simp [firstModelsStep, ht, hmem]
          have hf1 : ∀ m, m ∉ ms → (if m = a then f m + 1 else f m) = 0 := by
            intro m hm
            have : m ≠ a := fun h => hm (h ▸ hmem)
            simp [this, hf0 m hm]
          rw [h1, h2, bumpModel_map_mem ms f a hmem hnd,
            ih ms (fun k => if k = a then f k + 1 else f k) hnd hne hf1]
          apply List.map_congr_left
          intro k _
          by_cases hka : k = a
          · subst hka
            simp [modelFreq_cons, ht]
            omega
          · simp [modelFreq_cons, ht, hka, Ne.symm hka]
        · have h1 : modelCountsStep (ms.map fun k => (k, f k)) t
              = bumpModel (ms.map fun k => (k, f k)) a := by
            simp [modelCountsStep, ht, ha]
          have h2 : firstModelsStep ms t = ms ++ [a] := by
            simp [firstModelsStep, ht, ha, hmem]
          have hsplit : ms.map (fun k => (k, f k)) ++ [(a, 1)]
              = (ms ++ [a]).map (fun k => (k, if k = a then 1 else f k)) := by
            rw [List.map_append]
            congr 1
            · apply List.map_congr_left
              intro k hk
              have hka : k ≠ a := fun h => hmem (h ▸ hk)
              simp [hka]
            · simp
          have hnd' : (ms ++ [a]).Nodup := by
            simp [List.nodup_append, hnd, hmem]
          have hne' : ∀ m ∈ ms ++ [a], m ≠ "" := by
            intro m hm
            rcases List.mem_append.mp hm with h | h
            · exact hne m h
            · rw [List.mem_singleton] at h
              subst h
              exact ha
          have hf0' : ∀ m, m ∉ ms ++ [a] → (if m = a then 1 else f m) = 0 := by
            intro m hm
            rw [List.mem_append, List.mem_singleton] at hm
            push_neg at hm
            simp [hm.2, hf0 m hm.1]
          rw [h1, h2, bumpModel_map_notMem ms f a hmem, hsplit,
            ih (ms ++ [a]) (fun k => if k = a then 1 else f k) hnd' hne' hf0']
          apply List.map_congr_left
          intro k _
          have hfa0 : f a = 0 := hf0 a hmem
          by_cases hka : k = a
          · subst hka
            simp [modelFreq_cons, ht, hfa0]
          · simp [modelFreq_cons, ht, hka, Ne.symm hka]

/-- `modelCounts` lists each truthy model value once, in first-occurrence
order, with its frequency over the results. -/
theorem modelCounts_eq (ts : List TriageIssue) :
    modelCounts ts = (firstModels ts).map fun k => (k, modelFreq ts k) := by
  have h := counts_foldl_eq ts [] (fun _ => 0) (by simp) (by simp) (by simp)
  simpa [modelCounts, firstModels] using h

/-- Scanning a mapped key list for the first maximum agrees with the
name-level scan. -/
theorem firstMaxFrom_map (f : String → Nat) :
    ∀ (ms : List String) (b : String),
      firstMaxFrom (b, f b) (ms.map fun k => (k, f k))
        = (pickFreqFrom f b ms, f (pickFreqFrom f b ms)) := by
  intro ms
  induction ms with
  | nil => intro b; rfl
  | cons a ms ih =>
    intro b
    show firstMaxFrom (if f a > f b then (a, f a) else (b, f b)) (ms.map _) = _
    by_cases h : f a > f b
    · rw [if_pos h]
      rw [ih a]
      simp [pickFreqFrom, h]
    · rw [if_neg h]
      rw [ih b]
      simp [pickFreqFrom, h]

/-- The specification-side pick fold started at a value computes the
name-level first-maximum scan. -/
theorem specFold_some (f : String → Nat) :
    ∀ (ms : List String) (b : String),
      ms.foldl (specPickStep f) (some b) = some (pickFreqFrom f b ms) := by
  intro ms
  induction ms with
  | nil => intro b; rfl
  | cons a ms ih =>
    intro b
    rw [List.foldl_cons]
    show ms.foldl (specPickStep f) (if f a > f b then some a else some b) = _
    by_cases h : f a > f b
    · rw [if_pos h, ih a]
      simp [pickFreqFrom, h]
    · rw [if_neg h, ih b]
      simp [pickFreqFrom, h]

/-- The aggregator's sort-based model detection computes the
specification's "most frequent, ties to first occurrence" value. -/
theorem detectedModel_eq_spec (ts : List TriageIssue) (cfg : String) :
    detectedModel ts cfg = (specDetectedModel ts).getD cfg := by
  unfold detectedModel specDetectedModel
  rw [modelCounts_eq]
  cases hms : firstModels ts with
  | nil => rfl
  | cons m0 ms =>
    rw [List.map_cons, List.foldl_cons]
    show (match sortByCountDesc ((m0, modelFreq ts m0) :: ms.map _) with
      | [] => cfg
      | (m, _) :: _ => m)
      = (ms.foldl (specPickStep (modelFreq ts)) (some m0)).getD cfg
    rw [specFold_some]
    have hh := head_sortByCountDesc
      ((m0, modelFreq ts m0) :: ms.map fun k => (k, modelFreq ts k))
    have hfme : firstMaxEntry
        ((m0, modelFreq ts m0) :: ms.map fun k => (k, modelFreq ts k))
        = some (pickFreqFrom (modelFreq ts) m0 ms,
            modelFreq ts (pickFreqFrom (modelFreq ts) m0 ms)) := by
      show some (firstMaxFrom (m0, modelFreq ts m0) (ms.map _)) = _
      rw [firstMaxFrom_map]
    rw [hfme] at hh
    cases hs : sortByCountDesc
        ((m0, modelFreq ts m0) :: ms.map fun k => (k, modelFreq ts k)) with
    | nil => rw [hs] at hh; exact absurd hh (by simp)
    | cons p rest =>
      rw [hs] at hh
      simp only [List.head?_cons, Option.some.injEq] at hh
      simp [hh]

/-- **C8** (counterexample): an aggregated result whose model field is
the empty string is non-null, so the claim's reading makes it the most
frequent non-null model; the code, using JS truthiness, skips it and
falls back to the configured model. -/
theorem c8_counterexample :
    aggregateResults [sampleRaw] "cfg-model" emptyModelCache (fun _ _ => "")
        (fun _ => [])
      = some ((aggregateResults [sampleRaw] "cfg-model" emptyModelCache
          (fun _ _ => "") (fun _ => [])).getD junkReport) ∧
    ((aggregateResults [sampleRaw] "cfg-model" emptyModelCache (fun _ _ => "")
        (fun _ => [])).getD junkReport).model = "cfg-model" ∧
    (claimDetectedModel ((aggregateResults [sampleRaw] "cfg-model"
        emptyModelCache (fun _ _ => "") (fun _ => [])).getD
          junkReport).issues).getD "cfg-model" = "" ∧
    ((aggregateResults [sampleRaw] "cfg-model" emptyModelCache (fun _ _ => "")
        (fun _ => [])).getD junkReport).model
      ≠ (claimDetectedModel ((aggregateResults [sampleRaw] "cfg-model"
          emptyModelCache (fun _ _ => "") (fun _ => [])).getD
            junkReport).issues).getD "cfg-model" :=
  ⟨rfl, rfl, rfl, by decide⟩

/-- **C8** (amended): whenever the aggregator produces a report, its model
field is the most frequently occurring truthy (non-empty, non-null) model
value across the aggregated results, ties broken in favour of the value
occurring first in iteration order, and is the configured model when no
result reports a truthy model. -/
theorem c8_model_detection (raws : List RawIssue) (cfg : String)
    (cache : Nat → FileState) (link : String → List String → String)
    (mkActions : TriageIssue → List TriageAction) (r : TriageReport)
    (h : aggregateResults raws cfg cache link mkActions = some r) :
    r.model = (specDetectedModel r.issues).getD cfg := by
  simp only [aggregateResults] at h
  split at h
  · exact absurd h (by simp)
  · injection h with h
    subst h
    exact detectedModel_eq_spec _ cfg

/-- Witness for `c8_model_detection` on a three-item backlog whose results
report models "m-alpha", "m-beta", "m-beta". -/
theorem c8_model_detection_witness :
    aggregateResults [⟨11, "a"⟩, ⟨12, "b"⟩, ⟨13, "c"⟩] "cfg" modelCache
        (fun _ _ => "") (fun _ => [])
      = some ((aggregateResults [⟨11, "a"⟩, ⟨12, "b"⟩, ⟨13, "c"⟩] "cfg"
          modelCache (fun _ _ => "") (fun _ => [])).getD junkReport) ∧
    ((aggregateResults [⟨11, "a"⟩, ⟨12, "b"⟩, ⟨13, "c"⟩] "cfg" modelCache
        (fun _ _ => "") (fun _ => [])).getD junkReport).model = "m-beta" ∧
    ((aggregateResults [⟨11, "a"⟩, ⟨12, "b"⟩, ⟨13, "c"⟩] "cfg" modelCache
        (fun _ _ => "") (fun _ => [])).getD junkReport).model
      = (specDetectedModel ((aggregateResults [⟨11, "a"⟩, ⟨12, "b"⟩, ⟨13, "c"⟩]
          "cfg" modelCache (fun _ _ => "") (fun _ => [])).getD
            junkReport).issues).getD "cfg" :=
  ⟨rfl, rfl,
    c8_model_detection [⟨11, "a"⟩, ⟨12, "b"⟩, ⟨13, "c"⟩] "cfg" modelCache
      (fun _ _ => "") (fun _ => [])
      ((aggregateResults [⟨11, "a"⟩, ⟨12, "b"⟩, ⟨13, "c"⟩] "cfg" modelCache
        (fun _ _ => "") (fun _ => [])).getD junkReport) rfl⟩

end TspTriager
